import Mathlib

set_option maxHeartbeats 1000000

/- Verification development for the Avellaneda-Stoikov market-making core.

   The TypeScript sources are embedded shallowly: JavaScript numbers are
   modelled as real numbers, thrown exceptions as `Option.none`, and the
   mutable classes as explicit state-passing functions.  Definitions follow
   the structure of the corresponding source functions
   (src/strategies/as/core/formulas.ts, core/estimators.ts, the position
   manager, the ring buffer and the strategy update loop). -/

/-- Parameters of the AS model (`ASParameters` in config/types.ts). -/
structure ASParameters where
  gamma : ℝ
  kappa : ℝ
  sigma : ℝ
  timeHorizon : ℝ

/-- A full AS quote (`ASQuote` in config/types.ts; the `timestamp` field is
    not modelled). -/
structure ASQuote where
  midPrice : ℝ
  reservationPrice : ℝ
  halfSpread : ℝ
  bidPrice : ℝ
  askPrice : ℝ
  inventory : ℝ
  gamma : ℝ
  kappa : ℝ
  sigma : ℝ

/-- `calculateReservationPrice` from core/formulas.ts: `r = S - q·γ·σ²`. -/
def calculateReservationPrice (midPrice inventory gamma sigma : ℝ) : ℝ :=
  midPrice - inventory * gamma * (sigma * sigma)

/-- `calculateHalfSpread` from core/formulas.ts:
    `δ = (1/γ)·ln(1 + γ/κ) + 0.5·γ·σ²`; the function throws when
    `κ ≤ 0 ∨ γ ≤ 0`, modelled as `none`. -/
noncomputable def calculateHalfSpread (gamma kappa sigma : ℝ) : Option ℝ :=
  if kappa ≤ 0 ∨ gamma ≤ 0 then none
  else some ((1 / gamma) * Real.log (1 + gamma / kappa) + 0.5 * gamma * (sigma * sigma))

/-- `calculateBidAskPrices` from core/formulas.ts. -/
def calculateBidAskPrices (reservationPrice halfSpread : ℝ) : ℝ × ℝ :=
  (reservationPrice - halfSpread, reservationPrice + halfSpread)

/-- `calculateASQuote` from core/formulas.ts; `none` when the half-spread
    computation throws. -/
noncomputable def calculateASQuote (midPrice inventory : ℝ) (params : ASParameters) :
    Option ASQuote :=
  (calculateHalfSpread params.gamma params.kappa params.sigma).map fun halfSpread =>
    let reservationPrice :=
      calculateReservationPrice midPrice inventory params.gamma params.sigma
    let prices := calculateBidAskPrices reservationPrice halfSpread
    { midPrice := midPrice
      reservationPrice := reservationPrice
      halfSpread := halfSpread
      bidPrice := prices.1
      askPrice := prices.2
      inventory := inventory
      gamma := params.gamma
      kappa := params.kappa
      sigma := params.sigma }

/-- `applyPriceConstraints` from core/formulas.ts, with the three sequential
    mutation steps of the source (bid/ask repair, minimum-spread widening,
    maximum-spread narrowing) expressed as successive lets.  Note that the
    source computes `currentSpread` once, after the repair but before the
    widening, and the narrowing step tests that same `currentSpread`. -/
noncomputable def applyPriceConstraints (quote : ASQuote) (minSpread maxSpreadMultiplier : ℝ) :
    ASQuote :=
  let bid1 := if quote.bidPrice ≥ quote.midPrice then quote.midPrice - quote.halfSpread
              else quote.bidPrice
  let ask1 := if quote.askPrice ≤ quote.midPrice then quote.midPrice + quote.halfSpread
              else quote.askPrice
  let currentSpread := ask1 - bid1
  let bid2 := if currentSpread < minSpread then bid1 - (minSpread - currentSpread) / 2 else bid1
  let ask2 := if currentSpread < minSpread then ask1 + (minSpread - currentSpread) / 2 else ask1
  let hs2 := if currentSpread < minSpread then (ask2 - bid2) / 2 else quote.halfSpread
  let maxSpread := quote.halfSpread * maxSpreadMultiplier * 2
  let bid3 := if currentSpread > maxSpread then bid2 + (currentSpread - maxSpread) / 2 else bid2
  let ask3 := if currentSpread > maxSpread then ask2 - (currentSpread - maxSpread) / 2 else ask2
  let hs3 := if currentSpread > maxSpread then maxSpread / 2 else hs2
  { quote with bidPrice := bid3, askPrice := ask3, halfSpread := hs3 }

/-- The spread between ask and bid right after the bid<mid<ask repair step of
    `applyPriceConstraints` (the `currentSpread` local of the source). -/
noncomputable def repairedSpread (quote : ASQuote) : ℝ :=
  (if quote.askPrice ≤ quote.midPrice then quote.midPrice + quote.halfSpread
   else quote.askPrice) -
  (if quote.bidPrice ≥ quote.midPrice then quote.midPrice - quote.halfSpread
   else quote.bidPrice)

/-- Rounding directions of `roundToTickSize` in core/formulas.ts. -/
inductive RoundDirection where
  | down
  | up
  | nearest

/-- `roundToTickSize` from core/formulas.ts.  `Math.floor`, `Math.ceil` and
    `Math.round` (the latter being floor of `x + 0.5`) are modelled by the
    integer floor/ceil on ℝ. -/
noncomputable def roundToTickSize (price tickSize : ℝ) (direction : RoundDirection) : ℝ :=
  let normalized := price / tickSize
  let rounded : ℤ :=
    match direction with
    | RoundDirection.down => ⌊normalized⌋
    | RoundDirection.up => ⌈normalized⌉
    | RoundDirection.nearest => ⌊normalized + 1 / 2⌋
  (rounded : ℝ) * tickSize

/-- Result record of `calculateAS` (`ASCalculationResult` in config/types.ts). -/
structure ASCalculationResult where
  reservationPrice : ℝ
  halfSpread : ℝ
  bidPrice : ℝ
  askPrice : ℝ
  parameters : ASParameters

/-- `calculateAS` from core/formulas.ts: quote, constraints, then tick
    rounding (bid down, ask up). -/
noncomputable def calculateAS (midPrice inventory : ℝ) (params : ASParameters)
    (tickSize minSpread maxSpreadMultiplier : ℝ) : Option ASCalculationResult :=
  (calculateASQuote midPrice inventory params).map fun quote =>
    let constrainedQuote := applyPriceConstraints quote minSpread maxSpreadMultiplier
    { reservationPrice := constrainedQuote.reservationPrice
      halfSpread := constrainedQuote.halfSpread
      bidPrice := roundToTickSize constrainedQuote.bidPrice tickSize RoundDirection.down
      askPrice := roundToTickSize constrainedQuote.askPrice tickSize RoundDirection.up
      parameters := params }

/-- Helper: for positive parameters the half-spread computation succeeds and
    its value is positive. -/
lemma calculateHalfSpread_pos {gamma kappa sigma : ℝ}
    (hg : 0 < gamma) (hk : 0 < kappa) (hs : 0 ≤ sigma) :
    ∃ v, calculateHalfSpread gamma kappa sigma = some v ∧ 0 < v := by
  refine ⟨(1 / gamma) * Real.log (1 + gamma / kappa) + 0.5 * gamma * (sigma * sigma), ?_, ?_⟩
  · unfold calculateHalfSpread
    rw [if_neg]
    push_neg
    exact ⟨hk, hg⟩
  · have hlog : 0 < Real.log (1 + gamma / kappa) := by
      apply Real.log_pos
      have : 0 < gamma / kappa := div_pos hg hk
      linarith
    have h1 : 0 < (1 / gamma) * Real.log (1 + gamma / kappa) :=
      mul_pos (by positivity) hlog
    have h2 : 0 ≤ 0.5 * gamma * (sigma * sigma) := by positivity
    linarith

/-- C6: for every γ > 0, κ > 0 and σ ≥ 0, `calculateHalfSpread` does not
    throw and returns a strictly positive half-spread. -/
theorem halfSpread_positive (gamma kappa sigma : ℝ)
    (hg : 0 < gamma) (hk : 0 < kappa) (hs : 0 ≤ sigma) :
    ∃ v, calculateHalfSpread gamma kappa sigma = some v ∧ 0 < v :=
  calculateHalfSpread_pos hg hk hs

/-- Witness for C6 at γ = 1, κ = 1, σ = 0. -/
theorem halfSpread_positive_witness :
    (0:ℝ) < 1 ∧ (0:ℝ) < 1 ∧ (0:ℝ) ≤ 0 ∧
      ∃ v, calculateHalfSpread 1 1 0 = some v ∧ 0 < v :=
  ⟨by norm_num, by norm_num, le_refl 0,
    halfSpread_positive 1 1 0 (by norm_num) (by norm_num) (le_refl 0)⟩

/-- C1 (amended): for a quote produced by `calculateASQuote` with positive
    γ, κ and nonnegative σ, and `minSpread ≥ 0`, `maxSpreadMultiplier ≥ 1`,
    the constrained quote satisfies `bid < mid < ask` and
    `ask - bid ≥ minSpread` PROVIDED the spread right after the bid/ask
    repair does not exceed `2·halfSpread·maxSpreadMultiplier` (so the
    maximum-spread narrowing step does not fire); the repair is indeed
    applied before the spread-width clamping.  Without that proviso the
    narrowing step (which is driven by the pre-widening spread) can push the
    bid above the mid price, see the counterexample. -/
theorem priceConstraints_guarantees (midPrice inventory : ℝ) (params : ASParameters)
    (minSpread maxSpreadMultiplier : ℝ) (q : ASQuote)
    (hq : calculateASQuote midPrice inventory params = some q)
    (hg : 0 < params.gamma) (hk : 0 < params.kappa) (hs : 0 ≤ params.sigma)
    (hmin : 0 ≤ minSpread) (hM : 1 ≤ maxSpreadMultiplier)
    (hnarrow : repairedSpread q ≤ q.halfSpread * maxSpreadMultiplier * 2) :
    (applyPriceConstraints q minSpread maxSpreadMultiplier).bidPrice < q.midPrice ∧
    q.midPrice < (applyPriceConstraints q minSpread maxSpreadMultiplier).askPrice ∧
    minSpread ≤ (applyPriceConstraints q minSpread maxSpreadMultiplier).askPrice -
      (applyPriceConstraints q minSpread maxSpreadMultiplier).bidPrice := by
  obtain ⟨v, hv, hvpos⟩ := calculateHalfSpread_pos hg hk hs
  have hδ : 0 < q.halfSpread := by
    unfold calculateASQuote at hq
    rw [hv] at hq
    simp only [Option.map_some', Option.some.injEq] at hq
    rw [← hq]
    exact hvpos
  unfold repairedSpread at hnarrow
  revert hnarrow
  unfold applyPriceConstraints
  simp only []
  split_ifs <;> intro hnarrow <;>
    exact ⟨by linarith, by linarith, by linarith⟩

/-- Counterexample to C1 as stated: at mid = 100, inventory = −20,
    γ = κ = σ = 1, minSpread = 0, maxSpreadMultiplier = 1, the constrained
    quote has `bidPrice = 110 − (ln 2 + 0.5) > 100 = midPrice`: the
    maximum-spread narrowing moved the bid above the mid price. -/
theorem priceConstraints_claim_counterexample :
    ∃ q : ASQuote, calculateASQuote 100 (-20) ⟨1, 1, 1, 1⟩ = some q ∧
      ¬ ((applyPriceConstraints q 0 1).bidPrice < q.midPrice) := by
  have hlog0 : 0 < Real.log 2 := Real.log_pos (by norm_num)
  have hlog1 : Real.log 2 ≤ 1 := by
    have := Real.log_le_sub_one_of_pos (x := 2) (by norm_num)
    linarith
  refine ⟨⟨100, 120, Real.log 2 + 0.5, 120 - (Real.log 2 + 0.5),
    120 + (Real.log 2 + 0.5), -20, 1, 1, 1⟩, ?_, ?_⟩
  · unfold calculateASQuote calculateHalfSpread calculateReservationPrice calculateBidAskPrices
    rw [if_neg (by norm_num)]
    simp only [Option.map_some', Option.some.injEq]
    norm_num
  · unfold applyPriceConstraints
    simp only []
    split_ifs <;> push_neg <;> first | linarith | (exfalso; linarith)

/-- Order side (`OrderSide` in exchanges/interface.ts). -/
inductive OrderSide where
  | BUY
  | SELL
deriving DecidableEq

/-- Order status (`OrderStatus` in exchanges/interface.ts).  The
    partially-filled status, which the strategy handles through the same
    catch-all else branch as the cancelled/expired ones, is folded into
    `EXPIRED`-like treatment and omitted as a separate constructor. -/
inductive OrderStatus where
  | NEW
  | FILLED
  | CANCELLED
  | REJECTED
  | EXPIRED
deriving DecidableEq

/-- An exchange order (`Order` in exchanges/interface.ts; only the fields the
    core reads are modelled). -/
structure Order where
  orderId : String
  side : OrderSide
  status : OrderStatus
  quantity : ℝ
  executedQuantity : ℝ
  price : ℝ
  avgPrice : Option ℝ
  symbol : String

/-- A trade record (`Trade` in the position-manager types; the timestamp is
    not modelled). -/
structure Trade where
  side : OrderSide
  quantity : ℝ
  price : ℝ
  symbol : String

/-- The mutable fields of `PositionManager` (risk/position.ts). -/
structure PMState where
  currentInventory : ℝ
  averageEntryPrice : ℝ
  unrealizedPnl : ℝ
  realizedPnl : ℝ
  totalBuyVolume : ℝ
  totalSellVolume : ℝ
  trades : List Trade

/-- `PositionManager.handleBuy` from risk/position.ts. -/
noncomputable def handleBuy (s : PMState) (quantity price : ℝ) : PMState :=
  if s.currentInventory ≥ 0 then
    let newInventory := s.currentInventory + quantity
    { s with
      averageEntryPrice :=
        (s.currentInventory * s.averageEntryPrice + quantity * price) / newInventory
      currentInventory := newInventory }
  else
    let shortReduction := min quantity |s.currentInventory|
    let realizedPnl := s.realizedPnl + shortReduction * (s.averageEntryPrice - price)
    let currentInventory := s.currentInventory + quantity
    let averageEntryPrice :=
      if currentInventory > 0 then price
      else if currentInventory = 0 then 0
      else s.averageEntryPrice
    { s with
      realizedPnl := realizedPnl
      currentInventory := currentInventory
      averageEntryPrice := averageEntryPrice }

/-- `PositionManager.handleSell` from risk/position.ts. -/
noncomputable def handleSell (s : PMState) (quantity price : ℝ) : PMState :=
  if s.currentInventory ≤ 0 then
    let newInventory := s.currentInventory - quantity
    let currentNotional := |s.currentInventory| * s.averageEntryPrice
    let newNotional := quantity * price
    { s with
      averageEntryPrice := (currentNotional + newNotional) / |newInventory|
      currentInventory := newInventory }
  else
    let longReduction := min quantity s.currentInventory
    let realizedPnl := s.realizedPnl + longReduction * (price - s.averageEntryPrice)
    let currentInventory := s.currentInventory - quantity
    let averageEntryPrice :=
      if currentInventory < 0 then price
      else if currentInventory = 0 then 0
      else s.averageEntryPrice
    { s with
      realizedPnl := realizedPnl
      currentInventory := currentInventory
      averageEntryPrice := averageEntryPrice }

/-- `PositionManager.updateFromOrder` from risk/position.ts.  The JavaScript
    expression `order.avgPrice || order.price` falls back to `price` when
    `avgPrice` is absent or zero (falsy). -/
noncomputable def updateFromOrder (s : PMState) (o : Order) : PMState :=
  if o.executedQuantity ≤ 0 then s
  else
    let filledQty := o.executedQuantity
    let filledPrice :=
      match o.avgPrice with
      | some p => if p = 0 then o.price else p
      | none => o.price
    let s1 := { s with
      trades := s.trades ++ [(⟨o.side, filledQty, filledPrice, o.symbol⟩ : Trade)] }
    match o.side with
    | OrderSide.BUY =>
        handleBuy { s1 with totalBuyVolume := s1.totalBuyVolume + filledQty }
          filledQty filledPrice
    | OrderSide.SELL =>
        handleSell { s1 with totalSellVolume := s1.totalSellVolume + filledQty }
          filledQty filledPrice

/-- `PositionManager.updateUnrealizedPnl` from risk/position.ts. -/
noncomputable def updateUnrealizedPnl (s : PMState) (midPrice : ℝ) : PMState :=
  if s.currentInventory = 0 then { s with unrealizedPnl := 0 }
  else { s with unrealizedPnl := s.currentInventory * (midPrice - s.averageEntryPrice) }

/-- `PositionManager.canBuy` from risk/position.ts. -/
@[reducible] def canBuy (s : PMState) (maxPosition quantity : ℝ) : Prop :=
  s.currentInventory + quantity ≤ maxPosition

/-- `PositionManager.canSell` from risk/position.ts. -/
@[reducible] def canSell (s : PMState) (minPosition quantity : ℝ) : Prop :=
  s.currentInventory - quantity ≥ minPosition

/-- Helper: a buy against nonnegative inventory keeps realized PnL. -/
lemma handleBuy_realized_eq (s : PMState) (quantity price : ℝ)
    (hinv : 0 ≤ s.currentInventory) :
    (handleBuy s quantity price).realizedPnl = s.realizedPnl := by
  unfold handleBuy
  rw [if_pos hinv]

/-- Helper: a sell against nonpositive inventory keeps realized PnL. -/
lemma handleSell_realized_eq (s : PMState) (quantity price : ℝ)
    (hinv : s.currentInventory ≤ 0) :
    (handleSell s quantity price).realizedPnl = s.realizedPnl := by
  unfold handleSell
  rw [if_pos hinv]

/-- Helper: a BUY fill arriving at nonnegative inventory keeps realized PnL. -/
lemma updateFromOrder_realized_buy (s : PMState) (o : Order)
    (hq : 0 < o.executedQuantity) (hside : o.side = OrderSide.BUY)
    (hinv : 0 ≤ s.currentInventory) :
    (updateFromOrder s o).realizedPnl = s.realizedPnl := by
  unfold updateFromOrder
  rw [if_neg (not_le.mpr hq), hside]
  exact handleBuy_realized_eq _ _ _ hinv

/-- Helper: a SELL fill arriving at nonpositive inventory keeps realized PnL. -/
lemma updateFromOrder_realized_sell (s : PMState) (o : Order)
    (hq : 0 < o.executedQuantity) (hside : o.side = OrderSide.SELL)
    (hinv : s.currentInventory ≤ 0) :
    (updateFromOrder s o).realizedPnl = s.realizedPnl := by
  unfold updateFromOrder
  rw [if_neg (not_le.mpr hq), hside]
  exact handleSell_realized_eq _ _ _ hinv

/-- C3: a fill with positive executed quantity changes the cumulative
    realized PnL only if it closes part of the current exposure (a BUY
    against a short or a SELL against a long, i.e. only fills that reduce
    the magnitude of the covered portion); a BUY at nonnegative inventory
    and a SELL at nonpositive inventory leave realized PnL unchanged. -/
theorem realized_change_only_on_reducing_fill (s : PMState) (o : Order)
    (hq : 0 < o.executedQuantity) :
    ((updateFromOrder s o).realizedPnl ≠ s.realizedPnl →
      (o.side = OrderSide.BUY ∧ s.currentInventory < 0) ∨
      (o.side = OrderSide.SELL ∧ 0 < s.currentInventory)) ∧
    (o.side = OrderSide.BUY → 0 ≤ s.currentInventory →
      (updateFromOrder s o).realizedPnl = s.realizedPnl) ∧
    (o.side = OrderSide.SELL → s.currentInventory ≤ 0 →
      (updateFromOrder s o).realizedPnl = s.realizedPnl) := by
  refine ⟨?_, ?_, ?_⟩
  · intro hne
    cases hside : o.side with
    | BUY =>
      refine Or.inl ⟨rfl, ?_⟩
      by_contra h
      push_neg at h
      exact hne (updateFromOrder_realized_buy s o hq hside h)
    | SELL =>
      refine Or.inr ⟨rfl, ?_⟩
      by_contra h
      push_neg at h
      exact hne (updateFromOrder_realized_sell s o hq hside h)
  · exact fun hside hinv => updateFromOrder_realized_buy s o hq hside hinv
  · exact fun hside hinv => updateFromOrder_realized_sell s o hq hside hinv

/-- Witness for C3: a BUY of 1 at price 100 on a flat book leaves realized
    PnL unchanged. -/
theorem realized_change_only_on_reducing_fill_witness :
    (0:ℝ) < 1 ∧
    (((updateFromOrder ⟨0, 0, 0, 0, 0, 0, []⟩
        ⟨"o1", OrderSide.BUY, OrderStatus.FILLED, 1, 1, 100, none, "BTCUSDT"⟩).realizedPnl ≠ 0 →
      (OrderSide.BUY = OrderSide.BUY ∧ (0:ℝ) < 0) ∨
      (OrderSide.BUY = OrderSide.SELL ∧ (0:ℝ) < 0)) ∧
    (OrderSide.BUY = OrderSide.BUY → (0:ℝ) ≤ 0 →
      (updateFromOrder ⟨0, 0, 0, 0, 0, 0, []⟩
        ⟨"o1", OrderSide.BUY, OrderStatus.FILLED, 1, 1, 100, none, "BTCUSDT"⟩).realizedPnl = 0) ∧
    (OrderSide.BUY = OrderSide.SELL → (0:ℝ) ≤ 0 →
      (updateFromOrder ⟨0, 0, 0, 0, 0, 0, []⟩
        ⟨"o1", OrderSide.BUY, OrderStatus.FILLED, 1, 1, 100, none, "BTCUSDT"⟩).realizedPnl = 0)) :=
  ⟨by norm_num,
    realized_change_only_on_reducing_fill ⟨0, 0, 0, 0, 0, 0, []⟩
      ⟨"o1", OrderSide.BUY, OrderStatus.FILLED, 1, 1, 100, none, "BTCUSDT"⟩ (by norm_num)⟩

/-- Start state for the position-flip scenario of C4: short one unit at
    average entry 100. -/
def flipStart : PMState := ⟨-1, 100, 0, 0, 0, 0, []⟩

/-- C4: buying 2 units at 90 from short −1 at entry 100 realizes
    (100 − 90)·1 = 10 of PnL, flips inventory to +1 and resets the average
    entry price to the fill price 90. -/
theorem position_flip_buy :
    (handleBuy flipStart 2 90).realizedPnl = 10 ∧
    (handleBuy flipStart 2 90).currentInventory = 1 ∧
    (handleBuy flipStart 2 90).averageEntryPrice = 90 := by
  unfold handleBuy flipStart
  norm_num

/-- C10: an order whose executed quantity is not positive leaves the whole
    position-manager state unchanged (no trade appended, no field updated). -/
theorem updateFromOrder_nonpositive_frame (s : PMState) (o : Order)
    (h : o.executedQuantity ≤ 0) : updateFromOrder s o = s := by
  unfold updateFromOrder
  rw [if_pos h]

/-- Witness for C10 at a concrete zero-fill order. -/
theorem updateFromOrder_nonpositive_frame_witness :
    (0:ℝ) ≤ 0 ∧
    updateFromOrder ⟨2, 50, 1, 3, 4, 5, []⟩
      ⟨"o2", OrderSide.SELL, OrderStatus.CANCELLED, 1, 0, 100, none, "BTCUSDT"⟩ =
      ⟨2, 50, 1, 3, 4, 5, []⟩ :=
  ⟨le_refl 0,
    updateFromOrder_nonpositive_frame ⟨2, 50, 1, 3, 4, 5, []⟩
      ⟨"o2", OrderSide.SELL, OrderStatus.CANCELLED, 1, 0, 100, none, "BTCUSDT"⟩ (le_refl 0)⟩

/-- State of `RingBuffer<T>` from utils/ring-buffer.ts; the backing
    JavaScript array of length `capacity` (with `undefined` holes) is a list
    of options. -/
structure RingBuffer (α : Type) where
  buffer : List (Option α)
  head : Nat
  tail : Nat
  count : Nat
  capacity : Nat

/-- A freshly allocated ring buffer of the given capacity (the state right
    after a successful constructor run). -/
def RingBuffer.empty (α : Type) (capacity : Nat) : RingBuffer α :=
  ⟨List.replicate capacity none, 0, 0, 0, capacity⟩

/-- The `RingBuffer` constructor from utils/ring-buffer.ts: throws (`none`)
    on a non-positive capacity. -/
def RingBuffer.create (α : Type) (capacity : Int) : Option (RingBuffer α) :=
  if capacity ≤ 0 then none
  else some (RingBuffer.empty α capacity.toNat)

/-- `RingBuffer.push` from utils/ring-buffer.ts. -/
def RingBuffer.push {α : Type} (b : RingBuffer α) (item : α) : RingBuffer α :=
  let buffer := b.buffer.set b.head (some item)
  let head := (b.head + 1) % b.capacity
  if b.count < b.capacity then
    { b with buffer := buffer, head := head, count := b.count + 1 }
  else
    { b with buffer := buffer, head := head, tail := (b.tail + 1) % b.capacity }

/-- `RingBuffer.toArray` from utils/ring-buffer.ts: walk `count` slots from
    `tail`, skipping `undefined` holes. -/
def RingBuffer.toArray {α : Type} (b : RingBuffer α) : List α :=
  (List.range b.count).filterMap fun i => b.buffer.getD ((b.tail + i) % b.capacity) none

/-- `RingBuffer.size` from utils/ring-buffer.ts. -/
def RingBuffer.size {α : Type} (b : RingBuffer α) : Nat :=
  b.count

/-- Sequence of pushes, left to right. -/
def RingBuffer.pushAll {α : Type} (b : RingBuffer α) (xs : List α) : RingBuffer α :=
  xs.foldl RingBuffer.push b

/-- Abstraction relation: the ring-buffer state `b` represents the logical
    oldest-to-newest content `l`. -/
structure RBInv {α : Type} (b : RingBuffer α) (l : List α) : Prop where
  hcap : 0 < b.capacity
  hsize : b.buffer.length = b.capacity
  hcount : b.count = l.length
  hlen : l.length ≤ b.capacity
  htail : b.tail < b.capacity
  hhead : b.head = (b.tail + b.count) % b.capacity
  helem : ∀ i, i < l.length → b.buffer.getD ((b.tail + i) % b.capacity) none = l[i]?

/-- Adding a positive offset smaller than the modulus moves to a different
    residue. -/
lemma add_mod_ne_of_lt {n a d : Nat} (hd0 : 0 < d) (hdn : d < n) :
    (a + d) % n ≠ a % n := by
  intro h
  have h2 : d ≡ 0 [MOD n] := Nat.ModEq.add_left_cancel' a (by simpa [Nat.ModEq] using h)
  have h3 : n ∣ d := Nat.modEq_zero_iff_dvd.mp h2
  exact absurd (Nat.le_of_dvd hd0 h3) (not_le.mpr hdn)

/-- A `filterMap` over `range'` whose function hits exactly the entries of
    `l` returns `l`. -/
lemma filterMap_range'_eq {α : Type} (f : Nat → Option α) :
    ∀ (l : List α) (s : Nat), (∀ i, i < l.length → f (s + i) = l[i]?) →
      (List.range' s l.length).filterMap f = l := by
  intro l
  induction l with
  | nil => intro s _; rfl
  | cons a t ih =>
    intro s h
    have h0 : f s = some a := by simpa using h 0 (by simp)
    rw [List.length_cons, List.range'_succ, List.filterMap_cons_some h0]
    refine congrArg (a :: ·) (ih (s + 1) fun i hi => ?_)
    have h2 := h (i + 1) (by simpa using Nat.succ_lt_succ hi)
    rw [show s + 1 + i = s + (i + 1) from by omega]
    simpa using h2

/-- Any state satisfying the abstraction relation snapshots to its logical
    content. -/
lemma RBInv.toArray_eq {α : Type} {b : RingBuffer α} {l : List α} (h : RBInv b l) :
    b.toArray = l := by
  unfold RingBuffer.toArray
  rw [h.hcount, List.range_eq_range']
  exact filterMap_range'_eq _ l 0 fun i hi => by simpa using h.helem i hi

/-- Pushing into a non-full buffer appends the element. -/
lemma RBInv.push_not_full {α : Type} {b : RingBuffer α} {l : List α} (h : RBInv b l)
    (x : α) (hlt : l.length < b.capacity) : RBInv (b.push x) (l ++ [x]) := by
  have hc := h.hcount
  have hcnt : b.count < b.capacity := by omega
  have hheadlt : b.head < b.buffer.length := by
    rw [h.hsize, h.hhead]; exact Nat.mod_lt _ h.hcap
  unfold RingBuffer.push
  rw [if_pos hcnt]
  refine ⟨h.hcap, by simpa using h.hsize, by simp; omega, by simp; omega, h.htail, ?_, ?_⟩
  · show (b.head + 1) % b.capacity = (b.tail + (b.count + 1)) % b.capacity
    rw [h.hhead, Nat.mod_add_mod, Nat.add_assoc]
  · intro i hi
    simp only [List.length_append, List.length_singleton] at hi
    show (b.buffer.set b.head (some x)).getD ((b.tail + i) % b.capacity) none = (l ++ [x])[i]?
    rcases Nat.lt_or_ge i l.length with hil | hil
    · have hne : b.head ≠ (b.tail + i) % b.capacity := by
        have he : b.tail + i + (b.count - i) = b.tail + b.count := by omega
        rw [h.hhead, ← he]
        exact add_mod_ne_of_lt (by omega) (by omega)
      rw [List.getD_eq_getElem?_getD, List.getElem?_set_ne hne, List.getElem?_append_left hil,
        ← List.getD_eq_getElem?_getD]
      exact h.helem i hil
    · have hieq : i = l.length := by omega
      have hidx : (b.tail + i) % b.capacity = b.head := by
        rw [h.hhead]
        congr 1
        omega
      rw [List.getD_eq_getElem?_getD, hidx, List.getElem?_set_eq_of_lt (some x) hheadlt,
        hieq, List.getElem?_concat_length]
      rfl

/-- Pushing into a full buffer drops the oldest element and appends. -/
lemma RBInv.push_full {α : Type} {b : RingBuffer α} {l : List α} (h : RBInv b l)
    (x : α) (hfull : l.length = b.capacity) : RBInv (b.push x) (l.drop 1 ++ [x]) := by
  have hc := h.hcount
  have hcap := h.hcap
  have htail := h.htail
  have hcnt : ¬ b.count < b.capacity := by omega
  have hheadlt : b.head < b.buffer.length := by
    rw [h.hsize, h.hhead]; exact Nat.mod_lt _ h.hcap
  have hheadtail : b.head = b.tail := by
    rw [h.hhead, hc, hfull, Nat.add_mod_right, Nat.mod_eq_of_lt h.htail]
  unfold RingBuffer.push
  rw [if_neg hcnt]
  have hlen' : (l.drop 1 ++ [x]).length = l.length := by
    simp only [List.length_append, List.length_drop, List.length_singleton]
    omega
  refine ⟨h.hcap, by simpa using h.hsize, by rw [hlen']; exact hc,
    by rw [hlen']; exact h.hlen, Nat.mod_lt _ h.hcap, ?_, ?_⟩
  · show (b.head + 1) % b.capacity =
      ((b.tail + 1) % b.capacity + b.count) % b.capacity
    rw [h.hhead, Nat.mod_add_mod, Nat.mod_add_mod]
    congr 1
    omega
  · intro i hi
    rw [hlen', hfull] at hi
    show (b.buffer.set b.head (some x)).getD
      (((b.tail + 1) % b.capacity + i) % b.capacity) none = (l.drop 1 ++ [x])[i]?
    have hidx : ((b.tail + 1) % b.capacity + i) % b.capacity =
        (b.tail + (1 + i)) % b.capacity := by
      rw [Nat.mod_add_mod, Nat.add_assoc]
    rcases Nat.lt_or_ge i (b.capacity - 1) with hil | hil
    · have hne : b.head ≠ (b.tail + (1 + i)) % b.capacity := by
        rw [hheadtail]
        have := add_mod_ne_of_lt (n := b.capacity) (a := b.tail) (d := 1 + i)
          (by omega) (by omega)
        rw [Nat.mod_eq_of_lt htail] at this
        exact fun hcontra => this hcontra.symm
      rw [List.getD_eq_getElem?_getD, hidx, List.getElem?_set_ne hne,
        List.getElem?_append_left (by simp only [List.length_drop]; omega),
        List.getElem?_drop, ← List.getD_eq_getElem?_getD]
      exact h.helem (1 + i) (by omega)
    · have hieq : i = b.capacity - 1 := by omega
      have hidx2 : (b.tail + (1 + i)) % b.capacity = b.head := by
        rw [show 1 + i = b.capacity from by omega, Nat.add_mod_right,
          Nat.mod_eq_of_lt htail, hheadtail]
      have hdroplen : (l.drop 1).length = i := by
        simp only [List.length_drop]
        omega
      rw [List.getD_eq_getElem?_getD, hidx, hidx2,
        List.getElem?_set_eq_of_lt (some x) hheadlt, ← hdroplen,
        List.getElem?_concat_length]
      rfl

/-- Pushing preserves the capacity field. -/
lemma RingBuffer.capacity_push {α : Type} (b : RingBuffer α) (x : α) :
    (b.push x).capacity = b.capacity := by
  unfold RingBuffer.push
  split <;> rfl

/-- Capacity of a buffer built by pushing a whole list. -/
lemma RingBuffer.capacity_pushAll {α : Type} (b : RingBuffer α) (xs : List α) :
    (b.pushAll xs).capacity = b.capacity := by
  induction xs generalizing b with
  | nil => rfl
  | cons a t ih =>
    show (RingBuffer.pushAll (b.push a) t).capacity = b.capacity
    rw [ih (b.push a), RingBuffer.capacity_push]

/-- The state reached by pushing `xs` into a fresh buffer of capacity `C`
    represents the last `min (xs.length) C` elements of `xs`. -/
lemma pushAll_inv {α : Type} (C : Nat) (hC : 0 < C) (xs : List α) :
    RBInv (RingBuffer.pushAll (RingBuffer.empty α C) xs) (xs.drop (xs.length - C)) := by
  induction xs using List.reverseRecOn with
  | nil =>
    refine ⟨hC, by simp [RingBuffer.pushAll, RingBuffer.empty],
      by simp [RingBuffer.pushAll, RingBuffer.empty],
      by simp [RingBuffer.pushAll, RingBuffer.empty],
      by simpa [RingBuffer.pushAll, RingBuffer.empty] using hC,
      by simp [RingBuffer.pushAll, RingBuffer.empty], ?_⟩
    intro i hi
    simp at hi
  | append_singleton ys y ih =>
    have hcapeq : (RingBuffer.pushAll (RingBuffer.empty α C) ys).capacity = C := by
      rw [RingBuffer.capacity_pushAll]
      rfl
    have hfold : RingBuffer.pushAll (RingBuffer.empty α C) (ys ++ [y]) =
        (RingBuffer.pushAll (RingBuffer.empty α C) ys).push y := by
      unfold RingBuffer.pushAll
      rw [List.foldl_append]
      rfl
    have hllen : (ys.drop (ys.length - C)).length = ys.length - (ys.length - C) := by
      simp [List.length_drop]
    rw [hfold]
    rcases Nat.lt_or_ge ys.length C with hyl | hyl
    · have hlt : (ys.drop (ys.length - C)).length <
          (RingBuffer.pushAll (RingBuffer.empty α C) ys).capacity := by
        rw [hcapeq, hllen]; omega
      have h1 := ih.push_not_full y hlt
      have h2 : ys.drop (ys.length - C) ++ [y] = (ys ++ [y]).drop ((ys ++ [y]).length - C) := by
        rw [show ys.length - C = 0 from by omega, List.drop_zero,
          show (ys ++ [y]).length - C = 0 from by simp; omega, List.drop_zero]
      rwa [h2] at h1
    · have hfull : (ys.drop (ys.length - C)).length =
          (RingBuffer.pushAll (RingBuffer.empty α C) ys).capacity := by
        rw [hcapeq, hllen]; omega
      have h1 := ih.push_full y hfull
      have hlen2 : (ys ++ [y]).length = ys.length + 1 := by simp
      have h2 : (ys.drop (ys.length - C)).drop 1 ++ [y] =
          (ys ++ [y]).drop ((ys ++ [y]).length - C) := by
        rw [hlen2, List.drop_drop, List.drop_append_of_le_length (by omega)]
        congr 2
        omega
      rwa [h2] at h1

/-- C7: for every capacity `C ≥ 1` and every finite push sequence `xs`, the
    oldest-to-newest snapshot of the ring buffer holds exactly the last
    `min (xs.length) C` pushed elements, i.e. `xs.drop (xs.length - C)`. -/
theorem ringBuffer_toArray_last (α : Type) (C : Nat) (hC : 1 ≤ C) (xs : List α) :
    (RingBuffer.pushAll (RingBuffer.empty α C) xs).toArray = xs.drop (xs.length - C) :=
  (pushAll_inv C hC xs).toArray_eq

/-- Witness for C7: a capacity-3 buffer pushed [1,2,3,4] snapshots to
    [2,3,4]. -/
theorem ringBuffer_toArray_last_witness :
    1 ≤ 3 ∧ (RingBuffer.pushAll (RingBuffer.empty ℤ 3) [1, 2, 3, 4]).toArray = [2, 3, 4] := by
  refine ⟨by norm_num, ?_⟩
  have h := ringBuffer_toArray_last ℤ 3 (by norm_num) [1, 2, 3, 4]
  simpa using h

/-- State of `VolatilityCalculator` from core/estimators.ts. -/
structure VolatilityCalculator where
  priceBuffer : RingBuffer ℝ
  returnsBuffer : RingBuffer ℝ
  useEwma : Bool
  ewmaDecay : ℝ
  lastEwma : ℝ

/-- The `VolatilityCalculator` constructor from core/estimators.ts: it
    allocates a price buffer of size `window` and a returns buffer of size
    `window - 1`, either of which throws (`none`) on a non-positive
    capacity. -/
def VolatilityCalculator.create (window : Int) (useEwma : Bool) (ewmaDecay : ℝ) :
    Option VolatilityCalculator :=
  match RingBuffer.create ℝ window, RingBuffer.create ℝ (window - 1) with
  | some pb, some rb => some ⟨pb, rb, useEwma, ewmaDecay, 0⟩
  | _, _ => none

/-- C9: constructing a `VolatilityCalculator` succeeds exactly when the
    volatility window is at least 2; a window of 1 (or less) makes the
    internal returns buffer capacity `window - 1` non-positive, which the
    `RingBuffer` constructor rejects. -/
theorem volatilityCalculator_create_iff (window : Int) (useEwma : Bool) (ewmaDecay : ℝ) :
    (VolatilityCalculator.create window useEwma ewmaDecay).isSome = true ↔ 2 ≤ window := by
  unfold VolatilityCalculator.create RingBuffer.create
  split_ifs with h1 h2 <;> simp <;> omega

/-- State of `KappaCalculator` from core/estimators.ts. -/
structure KappaCalculator where
  spreadBuffer : RingBuffer ℝ
  midPriceBuffer : RingBuffer ℝ

/-- `KappaCalculator.calculate` from core/estimators.ts: `none` for fewer
    than 5 buffered spreads or a non-positive average spread, otherwise
    `1/(avgSpread·spreadMultiplier)` clamped into [0.001, 0.5] (the source
    writes the clamp as `Math.max(0.001, Math.min(0.5, kappa))`). -/
noncomputable def KappaCalculator.calculate (k : KappaCalculator) (spreadMultiplier : ℝ) :
    Option ℝ :=
  let spreads := k.spreadBuffer.toArray
  if spreads.length < 5 then none
  else
    let avgSpread := spreads.sum / (spreads.length : ℝ)
    if avgSpread ≤ 0 then none
    else some (max 0.001 (min 0.5 (1 / (avgSpread * spreadMultiplier))))

/-- `KappaCalculator.calculateFromVolatility` from core/estimators.ts. -/
noncomputable def calculateFromVolatility (sigma : ℝ) : ℝ :=
  if sigma ≤ 0 then 0.01
  else max 0.001 (min 0.5 (sigma / 10))

/-- C8: `calculate` returns null exactly when fewer than 5 spread samples
    are buffered or the average buffered spread is ≤ 0, and otherwise
    returns `1/(avgSpread·spreadMultiplier)` clamped to [0.001, 0.5]. -/
theorem kappa_calculate_spec (k : KappaCalculator) (spreadMultiplier : ℝ) :
    (KappaCalculator.calculate k spreadMultiplier = none ↔
      (k.spreadBuffer.toArray.length < 5 ∨
        k.spreadBuffer.toArray.sum / (k.spreadBuffer.toArray.length : ℝ) ≤ 0)) ∧
    (¬ k.spreadBuffer.toArray.length < 5 →
      ¬ k.spreadBuffer.toArray.sum / (k.spreadBuffer.toArray.length : ℝ) ≤ 0 →
      KappaCalculator.calculate k spreadMultiplier =
        some (max 0.001 (min 0.5
          (1 / (k.spreadBuffer.toArray.sum / (k.spreadBuffer.toArray.length : ℝ) *
            spreadMultiplier))))) := by
  unfold KappaCalculator.calculate
  dsimp only
  constructor
  · split_ifs with h1 h2 <;> simp <;>
      first
      | tauto
      | exact ⟨not_lt.mp h1, not_le.mp h2⟩
  · intro h1 h2
    rw [if_neg h1, if_neg h2]

/-- Concrete kappa-calculator state used as a witness: five buffered spreads
    of 0.1 each. -/
noncomputable def kappaWitnessState : KappaCalculator :=
  ⟨⟨[some 0.1, some 0.1, some 0.1, some 0.1, some 0.1], 0, 0, 5, 5⟩, ⟨[], 0, 0, 0, 0⟩⟩

/-- Witness for C8 at the concrete five-sample state and multiplier 2. -/
theorem kappa_calculate_spec_witness :
    ¬ kappaWitnessState.spreadBuffer.toArray.length < 5 ∧
    ¬ kappaWitnessState.spreadBuffer.toArray.sum /
        (kappaWitnessState.spreadBuffer.toArray.length : ℝ) ≤ 0 ∧
    KappaCalculator.calculate kappaWitnessState 2 =
      some (max 0.001 (min 0.5
        (1 / (kappaWitnessState.spreadBuffer.toArray.sum /
          (kappaWitnessState.spreadBuffer.toArray.length : ℝ) * 2)))) := by
  have htoA : kappaWitnessState.spreadBuffer.toArray = [0.1, 0.1, 0.1, 0.1, 0.1] := rfl
  have h1 : ¬ kappaWitnessState.spreadBuffer.toArray.length < 5 := by
    rw [htoA]
    norm_num
  have h2 : ¬ kappaWitnessState.spreadBuffer.toArray.sum /
      (kappaWitnessState.spreadBuffer.toArray.length : ℝ) ≤ 0 := by
    rw [htoA]
    norm_num
  exact ⟨h1, h2, (kappa_calculate_spec kappaWitnessState 2).2 h1 h2⟩

/-- Lower linear bound on the logarithm: `1 - 1/x ≤ ln x` for positive `x`. -/
lemma one_sub_inv_le_log {x : ℝ} (hx : 0 < x) : 1 - 1/x ≤ Real.log x := by
  have h := Real.log_le_sub_one_of_pos (inv_pos.mpr hx)
  rw [Real.log_inv] at h
  have : x⁻¹ = 1/x := (one_div x).symm
  linarith [h]

/-- Upper bound `ln (64/51) ≤ 0.227904`, via `64/51 ≤ (1.007122)³²`. -/
lemma log_64_51_le : Real.log ((64:ℝ)/51) ≤ 113952/500000 := by
  have h1 : ((64:ℝ)/51) ≤ (503561/500000)^(32:ℕ) := by norm_num
  have h2 : Real.log ((64:ℝ)/51) ≤ Real.log ((503561/500000)^(32:ℕ)) :=
    Real.log_le_log (by norm_num) h1
  rw [Real.log_pow] at h2
  have h3 : Real.log ((503561:ℝ)/500000) ≤ 503561/500000 - 1 :=
    Real.log_le_sub_one_of_pos (by norm_num)
  have h4 : ((32:ℕ):ℝ) = 32 := by norm_num
  rw [h4] at h2
  nlinarith [h2, h3]

/-- Lower bound `2848/12589 ≤ ln (64/51)`, via `(1.00712)³² ≤ 64/51`. -/
lemma log_64_51_ge : (2848:ℝ)/12589 ≤ Real.log ((64:ℝ)/51) := by
  have h1 : (((12589:ℝ)/12500))^(32:ℕ) ≤ 64/51 := by norm_num
  have h2 : Real.log (((12589:ℝ)/12500)^(32:ℕ)) ≤ Real.log ((64:ℝ)/51) :=
    Real.log_le_log (by positivity) h1
  rw [Real.log_pow] at h2
  have h3 : 1 - 1/((12589:ℝ)/12500) ≤ Real.log ((12589:ℝ)/12500) :=
    one_sub_inv_le_log (by norm_num)
  have h4 : 1 - 1/((12589:ℝ)/12500) = 89/12589 := by norm_num
  have h5 : ((32:ℕ):ℝ) = 32 := by norm_num
  rw [h5] at h2
  nlinarith [h2, h3]

/-- Two-sided numeric bounds on `ln 51`. -/
lemma log_51_bounds : (3.9309:ℝ) < Real.log 51 ∧ Real.log 51 < 3.9327 := by
  have hd : Real.log ((64:ℝ)/51) = Real.log 64 - Real.log 51 :=
    Real.log_div (by norm_num) (by norm_num)
  have h64 : Real.log (64:ℝ) = 6 * Real.log 2 := by
    rw [show (64:ℝ) = 2^(6:ℕ) by norm_num, Real.log_pow]
    norm_num
  have hub := Real.log_two_lt_d9
  have hlb := Real.log_two_gt_d9
  have h1 := log_64_51_le
  have h2 := log_64_51_ge
  constructor <;> nlinarith [hd, h64, hub, hlb, h1, h2]

/-- Parameters of the end-to-end scenario: γ = 0.5, κ = 0.01, σ = 0.001. -/
noncomputable def endParams : ASParameters := ⟨0.5, 0.01, 0.001, 1⟩

/-- The raw quote of the end-to-end scenario: reservation 50000, half-spread
    `2·ln 51 + 2.5e-7`. -/
noncomputable def endQuote : ASQuote :=
  ⟨50000, 50000, 2 * Real.log 51 + 1/4000000,
   50000 - (2 * Real.log 51 + 1/4000000),
   50000 + (2 * Real.log 51 + 1/4000000), 0, 0.5, 0.01, 0.001⟩

/-- Evaluation of `calculateASQuote` in the end-to-end scenario. -/
lemma endQuote_eval : calculateASQuote 50000 0 endParams = some endQuote := by
  unfold calculateASQuote calculateHalfSpread calculateReservationPrice calculateBidAskPrices
    endParams endQuote
  dsimp only
  rw [if_neg (by norm_num)]
  simp only [Option.map_some', Option.some.injEq]
  have h51 : (1:ℝ) + 0.5/0.01 = 51 := by norm_num
  rw [h51]
  norm_num

/-- The constraints step is the identity in the end-to-end scenario. -/
lemma endConstr : applyPriceConstraints endQuote 0.01 3 = endQuote := by
  obtain ⟨hL, hU⟩ := log_51_bounds
  unfold applyPriceConstraints endQuote
  dsimp only
  split_ifs <;> first | rfl | (exfalso; nlinarith [hL, hU])

/-- Tick rounding of the end-to-end bid: floor to 49992.13. -/
lemma endRoundBid :
    roundToTickSize (50000 - (2 * Real.log 51 + 1/4000000)) 0.01 RoundDirection.down =
      49992.13 := by
  obtain ⟨hL, hU⟩ := log_51_bounds
  unfold roundToTickSize
  dsimp only
  have hdiv : (50000 - (2 * Real.log 51 + 1/4000000)) / (0.01:ℝ) =
      (50000 - (2 * Real.log 51 + 1/4000000)) * 100 := by
    rw [show (0.01:ℝ) = 1/100 by norm_num, div_div_eq_mul_div, div_one]
  rw [hdiv]
  have hfloor : ⌊(50000 - (2 * Real.log 51 + 1/4000000)) * 100⌋ = (4999213:ℤ) := by
    rw [Int.floor_eq_iff]
    constructor
    · push_cast
      nlinarith [hL, hU]
    · push_cast
      nlinarith [hL, hU]
  rw [hfloor]
  norm_num

/-- Tick rounding of the end-to-end ask: ceil to 50007.87. -/
lemma endRoundAsk :
    roundToTickSize (50000 + (2 * Real.log 51 + 1/4000000)) 0.01 RoundDirection.up =
      50007.87 := by
  obtain ⟨hL, hU⟩ := log_51_bounds
  unfold roundToTickSize
  dsimp only
  have hdiv : (50000 + (2 * Real.log 51 + 1/4000000)) / (0.01:ℝ) =
      (50000 + (2 * Real.log 51 + 1/4000000)) * 100 := by
    rw [show (0.01:ℝ) = 1/100 by norm_num, div_div_eq_mul_div, div_one]
  rw [hdiv]
  have hceil : ⌈(50000 + (2 * Real.log 51 + 1/4000000)) * 100⌉ = (5000787:ℤ) := by
    rw [Int.ceil_eq_iff]
    constructor
    · push_cast
      nlinarith [hL, hU]
    · push_cast
      nlinarith [hL, hU]
  rw [hceil]
  norm_num

/-- Full evaluation of `calculateAS` in the end-to-end scenario: reservation
    50000, half-spread `2·ln 51 + 2.5e-7`, bid 49992.13, ask 50007.87. -/
lemma endAS_eval : calculateAS 50000 0 endParams 0.01 0.01 3 =
    some ⟨50000, 2 * Real.log 51 + 1/4000000, 49992.13, 50007.87, endParams⟩ := by
  unfold calculateAS
  rw [endQuote_eval]
  simp only [Option.map_some', Option.some.injEq]
  rw [endConstr]
  refine ASCalculationResult.mk.injEq .. |>.mpr ?_
  refine ⟨rfl, rfl, ?_, ?_, rfl⟩
  · exact endRoundBid
  · exact endRoundAsk

/-- Strategy lifecycle states (`StrategyState` in strategies/interface.ts). -/
inductive StrategyState where
  | INITIALIZING
  | RUNNING
  | PAUSED
  | STOPPING
  | STOPPED
  | ERROR
deriving DecidableEq

/-- Calls the strategy makes against the exchange during a cycle. -/
inductive ExchangeAction where
  | place (side : OrderSide) (price : ℝ) (quantity : ℝ)
  | cancel (orderId : String)
  | cancelAll

/-- `placeOrder` from the AS strategy: quantity rounded down to the lot
    size, price rounded to the nearest tick; a non-positive rounded quantity
    aborts the placement (returns a null order id).  Exchange failures are
    not modelled.  The returned id is the caller-provided fresh id. -/
noncomputable def placeOrderM (lotSize tickSize : ℝ) (newId : String)
    (side : OrderSide) (price quantity : ℝ) : Option String × List ExchangeAction :=
  let roundedQty := roundToTickSize quantity lotSize RoundDirection.down
  let roundedPrice := roundToTickSize price tickSize RoundDirection.nearest
  if roundedQty ≤ 0 then (none, [])
  else (some newId, [ExchangeAction.place side roundedPrice roundedQty])

/-- `updateOrCreateOrder` from the AS strategy.  `getOrder` abstracts the
    exchange order lookup.  Returns the updated position ledger (a FILLED
    outstanding order is applied to it), the stored order id for the side,
    and the emitted exchange actions. -/
noncomputable def updateOrCreateOrder (getOrder : String → Option Order)
    (tickSize lotSize : ℝ) (pm : PMState) (orderId : Option String) (newId : String)
    (side : OrderSide) (price quantity : ℝ) :
    PMState × Option String × List ExchangeAction :=
  match orderId with
  | none =>
    let r := placeOrderM lotSize tickSize newId side price quantity
    (pm, r.1, r.2)
  | some oid =>
    match getOrder oid with
    | some existingOrder =>
      if existingOrder.status = OrderStatus.NEW then
        if |existingOrder.price - price| ≥ tickSize then
          let r := placeOrderM lotSize tickSize newId side price quantity
          (pm, r.1, ExchangeAction.cancel oid :: r.2)
        else (pm, some oid, [])
      else if existingOrder.status = OrderStatus.FILLED then
        let pm2 := updateFromOrder pm existingOrder
        let r := placeOrderM lotSize tickSize newId side price quantity
        (pm2, r.1, r.2)
      else
        let r := placeOrderM lotSize tickSize newId side price quantity
        (pm, r.1, r.2)
    | none =>
      let r := placeOrderM lotSize tickSize newId side price quantity
      (pm, r.1, r.2)

/-- The order-management slice of the strategy state: the ledger plus the
    outstanding bid/ask order handles. -/
structure OrdersState where
  pm : PMState
  bidOrderId : Option String
  askOrderId : Option String

/-- `manageOrders` from the AS strategy: nothing in dry-run mode; otherwise
    both position-limit checks are evaluated up front on the incoming
    ledger, then the bid side is managed, then the ask side (on the ledger
    as left by the bid side). -/
noncomputable def manageOrders (dryRun : Bool)
    (orderSize maxPosition minPosition tickSize lotSize : ℝ)
    (getOrder : String → Option Order) (newBidId newAskId : String)
    (s : OrdersState) (bidPrice askPrice : ℝ) : OrdersState × List ExchangeAction :=
  if dryRun then (s, [])
  else
    let canBid := canBuy s.pm maxPosition orderSize
    let canAsk := canSell s.pm minPosition orderSize
    let bidRes :=
      if canBid then
        updateOrCreateOrder getOrder tickSize lotSize s.pm s.bidOrderId newBidId
          OrderSide.BUY bidPrice orderSize
      else
        match s.bidOrderId with
        | some oid => (s.pm, none, [ExchangeAction.cancel oid])
        | none => (s.pm, none, ([] : List ExchangeAction))
    let askRes :=
      if canAsk then
        updateOrCreateOrder getOrder tickSize lotSize bidRes.1 s.askOrderId newAskId
          OrderSide.SELL askPrice orderSize
      else
        match s.askOrderId with
        | some oid => (bidRes.1, none, [ExchangeAction.cancel oid])
        | none => (bidRes.1, none, ([] : List ExchangeAction))
    (⟨askRes.1, bidRes.2.1, askRes.2.1⟩, bidRes.2.2 ++ askRes.2.2)

/-- The strategy-level mutable state relevant to one update cycle. -/
structure StratState where
  state : StrategyState
  bidOrderId : Option String
  askOrderId : Option String
  pm : PMState

/-- The configuration fields the update cycle reads (`ASConfig` in
    config/types.ts, restricted to the fields `update` uses). -/
structure ASConfig where
  tickSize : ℝ
  lotSize : ℝ
  minSpread : ℝ
  maxSpreadMultiplier : ℝ
  orderSize : ℝ
  maxPosition : ℝ
  minPosition : ℝ
  stopLossThreshold : ℝ
  dryRun : Bool

/-- `BaseStrategy.stop` composed with the AS strategy's `onStop`: a no-op
    when already STOPPED/STOPPING, otherwise it cancels all outstanding
    orders, clears both order handles and ends in STOPPED (the transient
    STOPPING state is not retained). -/
noncomputable def stopStrategy (s : StratState) : StratState × List ExchangeAction :=
  if s.state = StrategyState.STOPPED ∨ s.state = StrategyState.STOPPING then (s, [])
  else ({ s with state := StrategyState.STOPPED, bidOrderId := none, askOrderId := none },
    [ExchangeAction.cancelAll])

/-- One `update` iteration of the AS strategy.  The estimator fusion is
    abstracted: γ, κ, σ are passed in as the post-`updateParameters` values,
    and `midPrice` as the value derived from the fetched order book.  The
    body follows the source: refresh unrealized PnL, stop-loss check (stop
    and return early when it trips), compute the constrained quote (a
    thrown `InvalidParameter` is `none`), then reconcile orders. -/
noncomputable def updateCycle (cfg : ASConfig) (getOrder : String → Option Order)
    (newBidId newAskId : String) (gamma kappa sigma : ℝ) (midPrice : ℝ)
    (s : StratState) : Option (StratState × List ExchangeAction) :=
  let pm1 := updateUnrealizedPnl s.pm midPrice
  if pm1.realizedPnl + pm1.unrealizedPnl < cfg.stopLossThreshold then
    some (stopStrategy { s with pm := pm1 })
  else
    match calculateAS midPrice pm1.currentInventory ⟨gamma, kappa, sigma, 1⟩
        cfg.tickSize cfg.minSpread cfg.maxSpreadMultiplier with
    | none => none
    | some result =>
      let mo := manageOrders cfg.dryRun cfg.orderSize cfg.maxPosition cfg.minPosition
        cfg.tickSize cfg.lotSize getOrder newBidId newAskId
        ⟨pm1, s.bidOrderId, s.askOrderId⟩ result.bidPrice result.askPrice
      some (⟨s.state, mo.1.bidOrderId, mo.1.askOrderId, mo.1.pm⟩, mo.2)

/-- C5: on a cycle whose refreshed total PnL (realized + unrealized) falls
    below the stop-loss threshold, the cycle's only exchange action is the
    cancel-all (so zero new orders are placed and all outstanding orders
    are cancelled), both order handles are cleared, and the strategy
    transitions from RUNNING to STOPPED. -/
theorem stopLoss_halts_cycle (cfg : ASConfig) (getOrder : String → Option Order)
    (newBidId newAskId : String) (gamma kappa sigma midPrice : ℝ) (s : StratState)
    (hrun : s.state = StrategyState.RUNNING)
    (hloss : (updateUnrealizedPnl s.pm midPrice).realizedPnl +
      (updateUnrealizedPnl s.pm midPrice).unrealizedPnl < cfg.stopLossThreshold) :
    ∃ s', updateCycle cfg getOrder newBidId newAskId gamma kappa sigma midPrice s =
        some (s', [ExchangeAction.cancelAll]) ∧
      s'.state = StrategyState.STOPPED ∧ s'.bidOrderId = none ∧ s'.askOrderId = none := by
  unfold updateCycle
  dsimp only
  rw [if_pos hloss]
  unfold stopStrategy
  rw [if_neg (by rw [hrun]; simp)]
  exact ⟨_, rfl, rfl, rfl, rfl⟩

/-- Concrete configuration for the stop-loss witness. -/
noncomputable def stopWitnessConfig : ASConfig :=
  ⟨0.01, 0.0001, 0.01, 3, 0.001, 0.01, -0.01, -1000, false⟩

/-- Concrete running strategy state with a large realized loss. -/
noncomputable def stopWitnessState : StratState :=
  ⟨StrategyState.RUNNING, none, none, ⟨0, 0, 0, -2000, 0, 0, []⟩⟩

/-- Witness for C5: a running strategy with realized PnL −2000 against a
    −1000 stop-loss threshold stops with a single cancel-all action. -/
theorem stopLoss_halts_cycle_witness :
    stopWitnessState.state = StrategyState.RUNNING ∧
    ((updateUnrealizedPnl stopWitnessState.pm 50000).realizedPnl +
      (updateUnrealizedPnl stopWitnessState.pm 50000).unrealizedPnl <
        stopWitnessConfig.stopLossThreshold) ∧
    ∃ s', updateCycle stopWitnessConfig (fun _ => none) "b1" "a1" 0.5 0.01 0.001 50000
        stopWitnessState = some (s', [ExchangeAction.cancelAll]) ∧
      s'.state = StrategyState.STOPPED ∧ s'.bidOrderId = none ∧ s'.askOrderId = none := by
  have hrun : stopWitnessState.state = StrategyState.RUNNING := rfl
  have hpm : updateUnrealizedPnl stopWitnessState.pm 50000 = stopWitnessState.pm := by
    unfold stopWitnessState updateUnrealizedPnl
    dsimp only
    rw [if_pos rfl]
  have hloss : (updateUnrealizedPnl stopWitnessState.pm 50000).realizedPnl +
      (updateUnrealizedPnl stopWitnessState.pm 50000).unrealizedPnl <
        stopWitnessConfig.stopLossThreshold := by
    rw [hpm]
    show (-2000:ℝ) + 0 < -1000
    norm_num
  exact ⟨hrun, hloss,
    stopLoss_halts_cycle stopWitnessConfig (fun _ => none) "b1" "a1" 0.5 0.01 0.001 50000
      stopWitnessState hrun hloss⟩

/-- Rounding the order size down to the lot size is the identity here. -/
lemma lotRound : roundToTickSize 0.001 0.0001 RoundDirection.down = 0.001 := by
  unfold roundToTickSize
  dsimp only
  rw [show (0.001:ℝ)/0.0001 = 10 by norm_num,
    show ((10:ℝ)) = ((10:ℤ):ℝ) by norm_num, Int.floor_intCast]
  norm_num

/-- Nearest-tick rounding of the already aligned bid price. -/
lemma nearBid : roundToTickSize 49992.13 0.01 RoundDirection.nearest = 49992.13 := by
  unfold roundToTickSize
  dsimp only
  rw [show (49992.13:ℝ)/0.01 = 4999213 by norm_num,
    show ⌊(4999213:ℝ) + 1/2⌋ = (4999213:ℤ) from by
      rw [Int.floor_eq_iff]
      constructor <;> norm_num]
  norm_num

/-- Nearest-tick rounding of the already aligned ask price. -/
lemma nearAsk : roundToTickSize 50007.87 0.01 RoundDirection.nearest = 50007.87 := by
  unfold roundToTickSize
  dsimp only
  rw [show (50007.87:ℝ)/0.01 = 5000787 by norm_num,
    show ⌊(5000787:ℝ) + 1/2⌋ = (5000787:ℤ) from by
      rw [Int.floor_eq_iff]
      constructor <;> norm_num]
  norm_num

/-- Placing the bid with no prior outstanding order emits one BUY. -/
lemma place_buy_eval :
    updateOrCreateOrder (fun _ => none) 0.01 0.0001 (⟨0, 0, 0, 0, 0, 0, []⟩ : PMState)
        none "bid-1" OrderSide.BUY 49992.13 0.001 =
      (⟨0, 0, 0, 0, 0, 0, []⟩, some "bid-1",
        [ExchangeAction.place OrderSide.BUY 49992.13 0.001]) := by
  unfold updateOrCreateOrder placeOrderM
  dsimp only
  rw [lotRound, nearBid]
  rw [if_neg (by norm_num : ¬ (0.001:ℝ) ≤ 0)]

/-- Placing the ask with no prior outstanding order emits one SELL. -/
lemma place_sell_eval :
    updateOrCreateOrder (fun _ => none) 0.01 0.0001 (⟨0, 0, 0, 0, 0, 0, []⟩ : PMState)
        none "ask-1" OrderSide.SELL 50007.87 0.001 =
      (⟨0, 0, 0, 0, 0, 0, []⟩, some "ask-1",
        [ExchangeAction.place OrderSide.SELL 50007.87 0.001]) := by
  unfold updateOrCreateOrder placeOrderM
  dsimp only
  rw [lotRound, nearAsk]
  rw [if_neg (by norm_num : ¬ (0.001:ℝ) ≤ 0)]

/-- Reconciliation with no prior outstanding orders on a flat ledger places
    exactly one BUY and one SELL order. -/
lemma manage_eval :
    manageOrders false 0.001 0.01 (-0.01) 0.01 0.0001 (fun _ => none) "bid-1" "ask-1"
        ⟨⟨0, 0, 0, 0, 0, 0, []⟩, none, none⟩ 49992.13 50007.87 =
      (⟨⟨0, 0, 0, 0, 0, 0, []⟩, some "bid-1", some "ask-1"⟩,
       [ExchangeAction.place OrderSide.BUY 49992.13 0.001,
        ExchangeAction.place OrderSide.SELL 50007.87 0.001]) := by
  unfold manageOrders
  rw [if_neg (by simp)]
  dsimp only
  rw [if_pos (show ((⟨0, 0, 0, 0, 0, 0, []⟩ : PMState)).currentInventory + 0.001 ≤ 0.01
      by norm_num)]
  rw [place_buy_eval]
  dsimp only
  rw [if_pos (show ((⟨0, 0, 0, 0, 0, 0, []⟩ : PMState)).currentInventory - 0.001 ≥ -0.01
      by norm_num)]
  rw [place_sell_eval]
  rfl

/-- C2 (amended): in the end-to-end scenario (mid 50000, flat inventory,
    γ = 0.5, κ = 0.01, σ = 0.001, tick 0.01, and the default
    minSpread = 0.01, maxSpreadMultiplier = 3), `calculateAS` returns
    reservation price 50000 and half-spread `2·ln 51 + 2.5e-7 ≈ 7.86`, the
    final bid rounds DOWN to 49992.13 (not 49992.14 as the spec states) and
    the final ask rounds UP to 50007.87; reconciliation with no prior
    outstanding orders (orderSize 0.001, maxPosition 0.01,
    minPosition −0.01, lot 0.0001) places exactly one BUY and one SELL. -/
theorem endToEnd_scenario :
    (∃ r, calculateAS 50000 0 endParams 0.01 0.01 3 = some r ∧
      r.reservationPrice = 50000 ∧
      r.halfSpread = 2 * Real.log 51 + 1/4000000 ∧
      |r.halfSpread - 7.86| < 0.01 ∧
      r.bidPrice = 49992.13 ∧ r.askPrice = 50007.87) ∧
    manageOrders false 0.001 0.01 (-0.01) 0.01 0.0001 (fun _ => none) "bid-1" "ask-1"
        ⟨⟨0, 0, 0, 0, 0, 0, []⟩, none, none⟩ 49992.13 50007.87 =
      (⟨⟨0, 0, 0, 0, 0, 0, []⟩, some "bid-1", some "ask-1"⟩,
       [ExchangeAction.place OrderSide.BUY 49992.13 0.001,
        ExchangeAction.place OrderSide.SELL 50007.87 0.001]) := by
  obtain ⟨hL, hU⟩ := log_51_bounds
  refine ⟨⟨_, endAS_eval, rfl, rfl, ?_, rfl, rfl⟩, manage_eval⟩
  rw [abs_lt]
  constructor <;> nlinarith [hL, hU]

/-- Counterexample to C2 as stated: the final bid price is not 49992.14
    (it is 49992.13, since 50000 − (2·ln 51 + 2.5e-7) ≈ 49992.1363 floors
    to the tick below). -/
theorem endToEnd_bid_counterexample :
    ¬ ∃ r, calculateAS 50000 0 endParams 0.01 0.01 3 = some r ∧
      r.bidPrice = 49992.14 := by
  rintro ⟨r, hr, hbid⟩
  rw [endAS_eval, Option.some.injEq] at hr
  rw [← hr] at hbid
  norm_num at hbid

/-- Concrete quote for the C1 witness: flat inventory at mid 100 with
    γ = κ = 1, σ = 0, so the half-spread is ln 2. -/
noncomputable def c1WitnessQuote : ASQuote :=
  ⟨100, 100, Real.log 2, 100 - Real.log 2, 100 + Real.log 2, 0, 1, 1, 0⟩

/-- Witness for C1 (amended) at mid 100, flat inventory, γ = κ = 1, σ = 0,
    minSpread 0 and multiplier 1. -/
theorem priceConstraints_guarantees_witness :
    calculateASQuote 100 0 ⟨1, 1, 0, 1⟩ = some c1WitnessQuote ∧
    repairedSpread c1WitnessQuote ≤ c1WitnessQuote.halfSpread * 1 * 2 ∧
    ((applyPriceConstraints c1WitnessQuote 0 1).bidPrice < c1WitnessQuote.midPrice ∧
     c1WitnessQuote.midPrice < (applyPriceConstraints c1WitnessQuote 0 1).askPrice ∧
     (0:ℝ) ≤ (applyPriceConstraints c1WitnessQuote 0 1).askPrice -
       (applyPriceConstraints c1WitnessQuote 0 1).bidPrice) := by
  have hlog0 : 0 < Real.log 2 := Real.log_pos (by norm_num)
  have hq : calculateASQuote 100 0 ⟨1, 1, 0, 1⟩ = some c1WitnessQuote := by
    unfold calculateASQuote calculateHalfSpread calculateReservationPrice
      calculateBidAskPrices c1WitnessQuote
    dsimp only
    rw [if_neg (by norm_num)]
    simp only [Option.map_some', Option.some.injEq]
    rw [show (1:ℝ) + 1/1 = 2 by norm_num]
    norm_num
  have hnarrow : repairedSpread c1WitnessQuote ≤ c1WitnessQuote.halfSpread * 1 * 2 := by
    unfold repairedSpread c1WitnessQuote
    dsimp only
    rw [if_neg (by linarith), if_neg (by linarith)]
    linarith
  exact ⟨hq, hnarrow,
    priceConstraints_guarantees 100 0 ⟨1, 1, 0, 1⟩ 0 1 c1WitnessQuote hq
      (by norm_num) (by norm_num) (le_refl 0) (le_refl 0) (le_refl 1) hnarrow⟩

/-- Witness for C9: a volatility window of 2 is accepted (and, per the
    theorem's iff, any window below 2 is rejected). -/
theorem volatilityCalculator_create_iff_witness :
    (VolatilityCalculator.create 2 false 0.94).isSome = true ∧ (2:ℤ) ≤ 2 :=
  ⟨(volatilityCalculator_create_iff 2 false 0.94).mpr (le_refl 2), le_refl 2⟩
